import Mathlib

/-!
Verification of the playback-simulator core of `src/example/FakePlayer.ts`:
the `resilientFetch` retry helper (lines 191-208) and the `FakePlayer`
state machine (elapsed timer, seek offset, deferred end-of-video timeout,
volume, position/duration accounting).
-/

namespace YtCast

/-! ## Resilient remote call (`resilientFetch`, FakePlayer.ts lines 191-208) -/

/-- Outcome of one `fetch` attempt: the attempt either resolves with an ok
response whose text is `body`, or it fails (transport error, non-ok HTTP
status, or a rejected `text()`), carrying the error message and whether the
error's name is `AbortError`. -/
inductive AttemptOutcome where
  | ok (body : String)
  | err (msg : String) (abort : Bool)
deriving DecidableEq, Repr

/-- The error message `resilientFetch` throws when it gives up:
`Failed after ${retries} attempts: ${error.message}`. -/
def failMsg (retries : Int) (msg : String) : String :=
  s!"Failed after {retries} attempts: {msg}"

/-- Loop of `resilientFetch` (source: `for (let attempt = 1; attempt <=
retries; attempt++)`). `attempt` is the current attempt index and `remaining`
the number of iterations still allowed, so the source guard `attempt ===
retries` is `remaining = 1`. If the loop exits without returning, the JS
function resolves with `undefined`, modelled as `Option.none`. The returned
`Nat` counts the attempts actually made. -/
def resilientFetchGo (attempts : Nat → AttemptOutcome) (retries : Int)
    (attempt : Nat) : Nat → Except String (Option String) × Nat
  | 0 => (.ok none, 0)
  | r + 1 =>
    match attempts attempt with
    | .ok body => (.ok (some body), 1)
    | .err msg ab =>
      if r = 0 ∨ ab = true then (.error (failMsg retries msg), 1)
      else
        let x := resilientFetchGo attempts retries (attempt + 1) r
        (x.1, x.2 + 1)

/-- Model of `resilientFetch(url, options, retries, timeout)`. The url and
options are abstracted into the per-attempt outcomes `attempts` (attempt
indices start at 1). The `timeout` argument mirrors the source signature; the
source creates an `AbortController` but never calls `abort()`, so `timeout`
does not influence the behaviour. Returns the result together with the number
of attempts made. -/
def resilientFetch (attempts : Nat → AttemptOutcome) (retries : Int)
    (timeout : Nat) : Except String (Option String) × Nat :=
  resilientFetchGo attempts retries 1 retries.toNat

/-- Skipping one failed (non-abort, non-final) attempt. -/
lemma resilientFetchGo_skip (attempts : Nat → AttemptOutcome) (retries : Int)
    (a r : Nat) (m : String) (hm : attempts a = .err m false) (hr : r ≠ 0) :
    resilientFetchGo attempts retries a (r + 1) =
      ((resilientFetchGo attempts retries (a + 1) r).1,
       (resilientFetchGo attempts retries (a + 1) r).2 + 1) := by
  simp [resilientFetchGo, hm, hr]

/-- Skipping `n` consecutive failed (non-abort) attempts. -/
lemma resilientFetchGo_skip_all (attempts : Nat → AttemptOutcome) (retries : Int) :
    ∀ (n a rem : Nat), n < rem →
      (∀ i, a ≤ i → i < a + n → ∃ m, attempts i = .err m false) →
      resilientFetchGo attempts retries a rem =
        ((resilientFetchGo attempts retries (a + n) (rem - n)).1,
         (resilientFetchGo attempts retries (a + n) (rem - n)).2 + n) := by
  intro n
  induction n with
  | zero => intro a rem _ _; simp
  | succ n ih =>
    intro a rem hlt hf
    obtain ⟨r, rfl⟩ : ∃ r, rem = r + 1 := ⟨rem - 1, by omega⟩
    obtain ⟨m, hm⟩ := hf a le_rfl (by omega)
    rw [resilientFetchGo_skip attempts retries a r m hm (by omega)]
    rw [ih (a + 1) r (by omega) (fun i h1 h2 => hf i (by omega) (by omega))]
    have e1 : a + 1 + n = a + (n + 1) := by omega
    have e2 : r - n = r + 1 - (n + 1) := by omega
    rw [e1, e2]
    simp [Nat.add_assoc]

/-- Claim C3: for `maxAttempts ≥ 1`, `resilientFetch` returns the body of the
first successful attempt; after `k-1` non-abort failures a success at attempt
`k` means exactly `k` attempts are made; an abort-classified failure at
attempt `k` ends the call immediately after `k` attempts, and if all
`maxAttempts` attempts fail the call raises the error carrying the last
failure's message and the attempt count, after exactly `maxAttempts`
attempts. -/
theorem resilientFetch_retry_spec (attempts : Nat → AttemptOutcome)
    (retries : Int) (timeout : Nat) (k : Nat) (hk1 : 1 ≤ k)
    (hk : (k : Int) ≤ retries)
    (hf : ∀ i, 1 ≤ i → i < k → ∃ m, attempts i = .err m false) :
    (∀ b, attempts k = .ok b →
       resilientFetch attempts retries timeout = (.ok (some b), k)) ∧
    (∀ m, attempts k = .err m true →
       resilientFetch attempts retries timeout = (.error (failMsg retries m), k)) ∧
    ((k : Int) = retries → ∀ m ab, attempts k = .err m ab →
       resilientFetch attempts retries timeout = (.error (failMsg retries m), k)) := by
  have hT : k ≤ retries.toNat := by omega
  have hrw : resilientFetchGo attempts retries 1 retries.toNat =
      ((resilientFetchGo attempts retries (1 + (k - 1)) (retries.toNat - (k - 1))).1,
       (resilientFetchGo attempts retries (1 + (k - 1)) (retries.toNat - (k - 1))).2 + (k - 1)) := by
    apply resilientFetchGo_skip_all attempts retries (k - 1) 1 retries.toNat (by omega)
    intro i h1 h2
    exact hf i h1 (by omega)
  have hka : 1 + (k - 1) = k := by omega
  obtain ⟨r, hrem⟩ : ∃ r, retries.toNat - (k - 1) = r + 1 := ⟨retries.toNat - k, by omega⟩
  rw [hka, hrem] at hrw
  refine ⟨?_, ?_, ?_⟩
  · intro b hb
    unfold resilientFetch
    rw [hrw]
    simp [resilientFetchGo, hb]
    omega
  · intro m hm
    unfold resilientFetch
    rw [hrw]
    simp [resilientFetchGo, hm]
    omega
  · intro hke m ab hm
    have hr0 : r = 0 := by omega
    unfold resilientFetch
    rw [hrw, hr0]
    simp [resilientFetchGo, hm]
    omega

/-- Concrete attempt sequence: attempts 1 and 2 fail (non-abort), attempt 3
onwards succeeds. -/
def attemptsFailTwice : Nat → AttemptOutcome :=
  fun i => if i < 3 then .err "boom" false else .ok "yay"

theorem resilientFetch_retry_spec_witness :
    resilientFetch attemptsFailTwice 5 30000 = (.ok (some "yay"), 3) :=
  (resilientFetch_retry_spec attemptsFailTwice 5 30000 3 (by omega) (by omega)
    (fun i _ h2 => ⟨"boom", by simp [attemptsFailTwice, h2]⟩)).1 "yay"
    (by simp [attemptsFailTwice])

/-- Claim C10: called with `maxAttempts ≤ 0`, the loop body never runs: the
call resolves with an `undefined` body after zero attempts and raises no
error. -/
theorem nonpositive_retries_zero_attempts (attempts : Nat → AttemptOutcome)
    (retries : Int) (timeout : Nat) (h : retries ≤ 0) :
    resilientFetch attempts retries timeout = (.ok none, 0) := by
  unfold resilientFetch
  have : retries.toNat = 0 := by omega
  rw [this]
  rfl

theorem nonpositive_retries_zero_attempts_witness :
    resilientFetch (fun _ => .err "down" false) (-3) 5000 = (.ok none, 0) :=
  nonpositive_retries_zero_attempts (fun _ => .err "down" false) (-3) 5000 (by omega)

/-! ## Timed view of `resilientFetch`, for the per-attempt timeout claim -/

/-- One `fetch` attempt with real-time information: either it completes after
`afterMs` milliseconds with the given outcome, or it never completes. -/
inductive TimedAttempt where
  | completes (afterMs : Nat) (outcome : AttemptOutcome)
  | never
deriving DecidableEq, Repr

/-- Timed loop of `resilientFetch`, translated from the source: the
`AbortController` is created but `abort()` is never called and the `timeout`
parameter is never read, so an attempt's completion time is irrelevant and an
attempt that never completes leaves the whole call awaiting forever
(modelled as `Option.none` at the outer level). -/
def resilientFetchTimedGo (attempts : Nat → TimedAttempt) (retries : Int)
    (attempt : Nat) : Nat → Option (Except String (Option String) × Nat)
  | 0 => some (.ok none, 0)
  | r + 1 =>
    match attempts attempt with
    | .never => none
    | .completes _ (.ok body) => some (.ok (some body), 1)
    | .completes _ (.err msg ab) =>
      if r = 0 ∨ ab = true then some (.error (failMsg retries msg), 1)
      else (resilientFetchTimedGo attempts retries (attempt + 1) r).map
             (fun x => (x.1, x.2 + 1))

/-- Timed model of `resilientFetch` (source lines 191-208): `none` means the
returned promise never settles. `timeout` is passed but, as in the source,
never used. -/
def resilientFetchTimed (attempts : Nat → TimedAttempt) (retries : Int)
    (timeout : Nat) : Option (Except String (Option String) × Nat) :=
  resilientFetchTimedGo attempts retries 1 retries.toNat

/-- Modelled from the spec: the per-attempt timeout contract of the Resilient
Remote Call (spec 4.3), which is absent from the source. An attempt that has
not completed after `timeout` milliseconds is abandoned, counted as a
failure, and the next attempt begins immediately; otherwise the attempt's
outcome is processed exactly as in the source loop. -/
def resilientFetchSpecTimedGo (attempts : Nat → TimedAttempt) (retries : Int)
    (timeout : Nat) (attempt : Nat) : Nat → Except String (Option String) × Nat
  | 0 => (.ok none, 0)
  | r + 1 =>
    let outcome : AttemptOutcome :=
      match attempts attempt with
      | .never => .err "per-attempt timeout" false
      | .completes t out => if timeout < t then .err "per-attempt timeout" false else out
    match outcome with
    | .ok body => (.ok (some body), 1)
    | .err msg ab =>
      if r = 0 ∨ ab = true then (.error (failMsg retries msg), 1)
      else
        let x := resilientFetchSpecTimedGo attempts retries timeout (attempt + 1) r
        (x.1, x.2 + 1)

/-- Modelled from the spec: `resilientFetch` as specified, with the
per-attempt timeout wired to cancellation. -/
def resilientFetchSpecTimed (attempts : Nat → TimedAttempt) (retries : Int)
    (timeout : Nat) : Except String (Option String) × Nat :=
  resilientFetchSpecTimedGo attempts retries timeout 1 retries.toNat

/-- Attempt 1 never completes; every later attempt succeeds quickly. -/
def attemptOneHangs : Nat → TimedAttempt :=
  fun i => if i = 1 then .never else .completes 10 (.ok "ok")

/-- Claim C4 counterexample: with `maxAttempts = 5` and `perAttemptTimeoutMs =
30000`, an attempt that has not completed after the timeout is, per the
claim, cancelled and followed by the next attempt (the spec-modelled call
returns attempt 2's body after 2 attempts), but the source call simply keeps
awaiting forever: no cancellation ever fires. -/
theorem timeout_not_wired_cex :
    resilientFetchTimed attemptOneHangs 5 30000 = none ∧
    resilientFetchSpecTimed attemptOneHangs 5 30000 = (.ok (some "ok"), 2) := by
  constructor <;> rfl

/-- Skipping `n` timed attempts that complete with non-abort failures. -/
lemma resilientFetchTimedGo_skip_all (attempts : Nat → TimedAttempt) (retries : Int) :
    ∀ (n a rem : Nat), n < rem →
      (∀ i, a ≤ i → i < a + n → ∃ m t, attempts i = .completes t (.err m false)) →
      resilientFetchTimedGo attempts retries a rem =
        (resilientFetchTimedGo attempts retries (a + n) (rem - n)).map
          (fun x => (x.1, x.2 + n)) := by
  intro n
  induction n with
  | zero =>
    intro a rem _ _
    simp
  | succ n ih =>
    intro a rem hlt hf
    obtain ⟨r, rfl⟩ : ∃ r, rem = r + 1 := ⟨rem - 1, by omega⟩
    obtain ⟨m, t, hm⟩ := hf a le_rfl (by omega)
    have hr0 : r ≠ 0 := by omega
    have hr : ¬ (r = 0 ∨ false = true) := by simp [hr0]
    simp only [resilientFetchTimedGo, hm, if_neg hr]
    rw [ih (a + 1) r (by omega) (fun i h1 h2 => hf i (by omega) (by omega))]
    have e1 : a + 1 + n = a + (n + 1) := by omega
    have e2 : r - n = r + 1 - (n + 1) := by omega
    rw [e1, e2]
    cases resilientFetchTimedGo attempts retries (a + (n + 1)) (r + 1 - (n + 1)) <;>
      simp [Nat.add_assoc]

/-- Claim C4 amended: the `perAttemptTimeoutMs` argument is accepted but never
wired to the cancellation handle, so (a) the call's behaviour is identical
under any two timeout values, and (b) if, after some completed non-abort
failures, an attempt within the allowed range never completes, the call never
settles instead of cancelling the attempt and moving on. -/
theorem timeout_ignored_hang (attempts : Nat → TimedAttempt) (retries : Int)
    (t1 t2 : Nat) (k : Nat) (hk1 : 1 ≤ k) (hk : (k : Int) ≤ retries)
    (hf : ∀ i, 1 ≤ i → i < k → ∃ m t, attempts i = .completes t (.err m false))
    (hn : attempts k = .never) :
    resilientFetchTimed attempts retries t1 = none ∧
    resilientFetchTimed attempts retries t1 = resilientFetchTimed attempts retries t2 := by
  refine ⟨?_, rfl⟩
  unfold resilientFetchTimed
  rw [resilientFetchTimedGo_skip_all attempts retries (k - 1) 1 retries.toNat (by omega)
      (fun i h1 h2 => hf i h1 (by omega))]
  have hka : 1 + (k - 1) = k := by omega
  obtain ⟨r, hrem⟩ : ∃ r, retries.toNat - (k - 1) = r + 1 := ⟨retries.toNat - k, by omega⟩
  rw [hka, hrem]
  simp [resilientFetchTimedGo, hn]

theorem timeout_ignored_hang_witness :
    resilientFetchTimed attemptOneHangs 5 30000 = none ∧
    resilientFetchTimed attemptOneHangs 5 30000 = resilientFetchTimed attemptOneHangs 5 0 :=
  timeout_ignored_hang attemptOneHangs 5 30000 0 1 le_rfl (by omega)
    (fun i h1 h2 => absurd h2 (by omega)) rfl

/-! ## Elapsed timer

Modelled from the spec: the `timer-node` `Timer` used by `FakePlayer` is an
external collaborator; spec 4.1 gives its contract. `start()` begins counting
from zero if not already started, `pause()` freezes a running count,
`resume()` continues a paused count, `stop()` resets the running/paused flags
to idle but retains the elapsed value until `clear()` zeroes it, and the
already-paused/already-idle calls are no-ops. Elapsed wall-clock time is made
explicit through `tick`, which accumulates milliseconds while running. -/

/-- Timer flags: `idle` covers both never-started and stopped. -/
inductive TimerMode where
  | idle
  | running
  | paused
deriving DecidableEq, Repr

/-- Modelled from the spec: the `timer-node` timer state (spec 4.1), with the
accumulated elapsed milliseconds kept explicitly. -/
structure Timer where
  mode : TimerMode
  accMs : Nat
deriving DecidableEq, Repr

namespace Timer

def start (t : Timer) : Timer := if t.mode = .idle then ⟨.running, 0⟩ else t

def pause (t : Timer) : Timer := if t.mode = .running then ⟨.paused, t.accMs⟩ else t

def resume (t : Timer) : Timer := if t.mode = .paused then ⟨.running, t.accMs⟩ else t

def stop (t : Timer) : Timer := ⟨.idle, t.accMs⟩

def clear (_t : Timer) : Timer := ⟨.idle, 0⟩

/-- Source `timer.ms()`: accumulated elapsed milliseconds. -/
def ms (t : Timer) : Nat := t.accMs

def isPaused (t : Timer) : Bool := t.mode = .paused

def isStarted (t : Timer) : Bool := t.mode ≠ .idle

def isStopped (t : Timer) : Bool := t.mode = .idle

/-- Model of time passing: `dt` milliseconds of wall-clock time pass: the count accumulates only
while running. -/
def tick (t : Timer) (dt : Nat) : Timer :=
  if t.mode = .running then ⟨.running, t.accMs + dt⟩ else t

end Timer

/-! ## FakePlayer state -/

/-- Playback status of the base `Player`. Modelled from the spec: the status
field and its transitions (spec 3 and 4.4) belong to the base class, which is
outside `src/`; states are STOPPED (initial), PLAYING, PAUSED. -/
inductive PlayerStatus where
  | stopped
  | playing
  | paused
deriving DecidableEq, Repr

structure Volume where
  level : Nat
  muted : Bool
deriving DecidableEq, Repr

/-- Modelled from the spec: the video metadata returned by
`VideoLoader.getInfo` (spec 6), `{title, duration} | null`, where a missing
duration is treated as 0 by the caller (`info.duration || 0`). -/
structure VideoInfo where
  title : String
  duration : Option Nat
deriving DecidableEq, Repr

/-- One armed `setTimeout` handle: its id and the remaining delay in
milliseconds (stored as `Int` because the source computes the delay as
`(duration - seekOffset + 1) * 1000`, which can be negative). -/
structure PendingTimer where
  id : Nat
  delayMs : Int
deriving DecidableEq, Repr

/-- The `FakePlayer` instance fields (FakePlayer.ts lines 21-47) together
with the base player's `status`, the set of armed `setTimeout` timers of the
runtime (so that "at most one pending callback" is a provable fact rather
than a modelling assumption), a fresh-id counter for those timers, and a
count of `next()` signals sent to the base player. -/
structure FState where
  status : PlayerStatus
  currentVideoId : Option String
  currentVideoTitle : Option String
  timer : Timer
  seekOffset : Nat
  duration : Nat
  timeoutRef : Option Nat
  pendingTimers : List PendingTimer
  nextId : Nat
  volume : Volume
  nextCount : Nat
deriving DecidableEq, Repr

/-- The constructor state (FakePlayer.ts lines 30-47). -/
def initState : FState where
  status := .stopped
  currentVideoId := none
  currentVideoTitle := none
  timer := ⟨.idle, 0⟩
  seekOffset := 0
  duration := 0
  timeoutRef := none
  pendingTimers := []
  nextId := 0
  volume := ⟨50, false⟩
  nextCount := 0

/-- Source `#resetTimeout` (lines 150-155): `clearTimeout` on the stored handle, if
any, then null the field. -/
def resetTimeout (s : FState) : FState :=
  match s.timeoutRef with
  | some i =>
    { s with pendingTimers := s.pendingTimers.filter (fun t => t.id ≠ i),
             timeoutRef := none }
  | none => s

/-- Source `#startTimeout(duration)` (lines 157-168): reset, then arm a single-shot
timeout for `(duration + 1) * 1000` milliseconds and store its handle. -/
def startTimeout (s : FState) (d : Int) : FState :=
  let s1 := resetTimeout s
  { s1 with pendingTimers := s1.pendingTimers ++ [⟨s1.nextId, (d + 1) * 1000⟩],
            timeoutRef := some s1.nextId,
            nextId := s1.nextId + 1 }

/-- Source `#fakePause` (lines 127-131): pause the timer, cancel the timeout. -/
def fakePause (s : FState) : FState :=
  resetTimeout { s with timer := s.timer.pause }

/-- Source `#fakeStop` (lines 133-138): zero the seek offset, stop and clear the
timer, cancel the timeout. -/
def fakeStop (s : FState) : FState :=
  resetTimeout { s with seekOffset := 0, timer := s.timer.stop.clear }

/-- Source `#fakeResume` (lines 98-107): resume a paused timer, or (re)start an
idle one, then schedule the end-of-video timeout for
`duration - seekOffset` seconds (the timer branch leaves `duration` and
`seekOffset` untouched, so they are read off `s`). -/
def fakeResume (s : FState) : FState :=
  startTimeout
    (if s.timer.isPaused then { s with timer := s.timer.resume }
     else if s.timer.isStopped || !s.timer.isStarted then { s with timer := s.timer.start }
     else s)
    ((s.duration : Int) - (s.seekOffset : Int))

/-- Source `#fakePlay` (lines 109-125): set the seek offset and stop the timer
before awaiting the metadata load; on a null result return `false` with no
further change; on success record the video identity, restart the timer,
schedule the timeout for `duration - seekOffset` seconds, and set the
duration. -/
def fakePlay (s : FState) (videoId : String) (p : Nat) (meta : Option VideoInfo) :
    FState × Bool :=
  let s1 := resetTimeout { s with seekOffset := p, timer := s.timer.stop }
  match meta with
  | some info =>
    let dur := info.duration.getD 0
    let s2 := { s1 with currentVideoId := some videoId,
                        currentVideoTitle := some info.title,
                        timer := s1.timer.start }
    let s3 := startTimeout s2 ((dur : Int) - (p : Int))
    ({ s3 with duration := dur }, true)
  | none => (s1, false)

/-- Source `#fakeSeek(position)` (lines 140-148): stop and clear the timer, set the
seek offset, cancel the timeout, and if the base status is PLAYING perform
the resume effect. -/
def fakeSeek (s : FState) (p : Nat) : FState :=
  let s1 := resetTimeout { s with timer := s.timer.stop.clear, seekOffset := p }
  if s1.status = .playing then fakeResume s1 else s1

/-- Source `doGetPosition` (lines 90-92): `seekOffset + floor(timer.ms() / 1000)`. -/
def doGetPosition (s : FState) : Nat :=
  s.seekOffset + s.timer.ms / 1000

/-- Source `doGetDuration` (lines 94-96). -/
def doGetDuration (s : FState) : Nat :=
  s.duration

/-! ## Operations and reachability

Each transition carries the outcome of its mirrored remote call: `remoteOk =
false` means `resilientFetch` exhausted its attempts and threw, in which case
the `await` in the corresponding `do...` method rethrows before the local
`#fake...` effect runs, so the state is unchanged (see
`remote_failure_blocks_local_transition`). Status updates on success are
modelled from the spec(4.4): play → PLAYING (metadata failure: unchanged),
pause → PAUSED, resume → PLAYING, stop → STOPPED, seek → unchanged. `tick`
is wall-clock time passing; `fire` is the armed `setTimeout` callback
running (lines 159-167), whose body awaits `this.pause()` — itself a
mirrored remote call — and on its success zeroes the seek offset, stops and
clears the timer, and signals `next()`. -/

inductive FOp where
  | play (videoId : String) (p : Nat) (meta : Option VideoInfo) (remoteOk : Bool)
  | pause (remoteOk : Bool)
  | resume (remoteOk : Bool)
  | stop (remoteOk : Bool)
  | seek (p : Nat) (remoteOk : Bool)
  | setVolume (v : Volume)
  | tick (dt : Nat)
  | fire (remotePauseOk : Bool)
deriving DecidableEq, Repr

def step (s : FState) (op : FOp) : FState :=
  match op with
  | .play vid p meta remoteOk =>
    if remoteOk then
      let r := fakePlay s vid p meta
      if r.2 then { r.1 with status := .playing } else r.1
    else s
  | .pause remoteOk => if remoteOk then { fakePause s with status := .paused } else s
  | .resume remoteOk => if remoteOk then { fakeResume s with status := .playing } else s
  | .stop remoteOk => if remoteOk then { fakeStop s with status := .stopped } else s
  | .seek p remoteOk => if remoteOk then fakeSeek s p else s
  | .setVolume v => { s with volume := v }
  | .tick dt =>
    { s with timer := s.timer.tick dt,
             pendingTimers := s.pendingTimers.map (fun t => ⟨t.id, t.delayMs - (dt : Int)⟩) }
  | .fire remotePauseOk =>
    match s.pendingTimers with
    | [] => s
    | _t :: rest =>
      if remotePauseOk then
        let s1 := { fakePause { s with pendingTimers := rest } with status := .paused }
        let s2 := { s1 with seekOffset := 0, timer := s1.timer.stop.clear }
        { s2 with nextCount := s2.nextCount + 1 }
      else { s with pendingTimers := rest }

/-- Physical realizability of an event: time cannot pass beyond an armed
timeout's deadline without the timeout firing, and a timeout can only fire
once its remaining delay has elapsed (and only if one is armed). -/
abbrev ValidOp (s : FState) (op : FOp) : Prop :=
  match op with
  | .tick dt => ∀ t ∈ s.pendingTimers, (dt : Int) ≤ t.delayMs
  | .fire _ => s.pendingTimers ≠ [] ∧ ∀ t ∈ s.pendingTimers, t.delayMs ≤ 0
  | _ => True

/-- States reachable from the constructor state through realizable events. -/
inductive Reachable : FState → Prop where
  | base : Reachable initState
  | trans : ∀ s op, Reachable s → ValidOp s op → Reachable (step s op)

/-- Run a sequence of events from the constructor state. -/
def run (ops : List FOp) : FState :=
  ops.foldl step initState


/-! ## Step equations (definitional) -/

lemma step_play_ok (s : FState) (vid : String) (p : Nat) (meta : Option VideoInfo) :
    step s (.play vid p meta true) =
      (if (fakePlay s vid p meta).2 then { (fakePlay s vid p meta).1 with status := .playing }
       else (fakePlay s vid p meta).1) := rfl

lemma step_pause_ok (s : FState) : step s (.pause true) = { fakePause s with status := .paused } := rfl

lemma step_resume_ok (s : FState) : step s (.resume true) = { fakeResume s with status := .playing } := rfl

lemma step_stop_ok (s : FState) : step s (.stop true) = { fakeStop s with status := .stopped } := rfl

lemma step_seek_ok (s : FState) (p : Nat) : step s (.seek p true) = fakeSeek s p := rfl

lemma step_play_fail (s : FState) (vid : String) (p : Nat) (meta : Option VideoInfo) :
    step s (.play vid p meta false) = s := rfl

lemma step_pause_fail (s : FState) : step s (.pause false) = s := rfl

lemma step_resume_fail (s : FState) : step s (.resume false) = s := rfl

lemma step_stop_fail (s : FState) : step s (.stop false) = s := rfl

lemma step_seek_fail (s : FState) (p : Nat) : step s (.seek p false) = s := rfl

lemma step_setVolume (s : FState) (v : Volume) : step s (.setVolume v) = { s with volume := v } := rfl

lemma step_tick (s : FState) (dt : Nat) :
    step s (.tick dt) =
      { s with timer := s.timer.tick dt,
               pendingTimers := s.pendingTimers.map (fun t => ⟨t.id, t.delayMs - (dt : Int)⟩) } := rfl

lemma step_fire_nil (s : FState) (r : Bool) (h : s.pendingTimers = []) :
    step s (.fire r) = s := by
  simp only [step]
  rw [h]

lemma step_fire_cons_ok (s : FState) (t : PendingTimer) (rest : List PendingTimer)
    (h : s.pendingTimers = t :: rest) :
    step s (.fire true) =
      (let s1 := { fakePause { s with pendingTimers := rest } with status := PlayerStatus.paused }
       let s2 := { s1 with seekOffset := 0, timer := s1.timer.stop.clear }
       { s2 with nextCount := s2.nextCount + 1 }) := by
  simp only [step]
  rw [h]
  rfl

lemma step_fire_cons_fail (s : FState) (t : PendingTimer) (rest : List PendingTimer)
    (h : s.pendingTimers = t :: rest) :
    step s (.fire false) = { s with pendingTimers := rest } := by
  simp only [step]
  rw [h]
  rfl

/-! ## The stored handle owns every armed timer -/

/-- Every armed timer is the one referenced by `this.timeout`. -/
abbrev RefInv (s : FState) : Prop :=
  ∀ t ∈ s.pendingTimers, s.timeoutRef = some t.id

lemma pendingTimers_nil_of_refInv_none (s : FState) (hInv : RefInv s)
    (h : s.timeoutRef = none) : s.pendingTimers = [] := by
  cases hp : s.pendingTimers with
  | nil => rfl
  | cons t ts =>
    have := hInv t (by rw [hp]; exact List.mem_cons_self t ts)
    rw [h] at this
    cases this

lemma resetTimeout_eq (s : FState) (hInv : RefInv s) :
    resetTimeout s = { s with pendingTimers := [], timeoutRef := none } := by
  rcases h : s.timeoutRef with _ | i
  · have hp := pendingTimers_nil_of_refInv_none s hInv h
    rw [show (resetTimeout s = s) from by simp [resetTimeout, h], ← hp, ← h]
  · have hp : s.pendingTimers.filter (fun t => t.id ≠ i) = [] := by
      rw [List.filter_eq_nil_iff]
      intro t ht
      have h2 := hInv t ht
      rw [h] at h2
      simp_all
    simp only [resetTimeout, h, hp]

lemma startTimeout_eq (s : FState) (d : Int) (hInv : RefInv s) :
    startTimeout s d =
      { s with pendingTimers := [⟨s.nextId, (d + 1) * 1000⟩],
               timeoutRef := some s.nextId,
               nextId := s.nextId + 1 } := by
  unfold startTimeout
  rw [resetTimeout_eq s hInv]
  rfl

lemma fakePause_eq (s : FState) (hInv : RefInv s) :
    fakePause s = { s with timer := s.timer.pause, pendingTimers := [], timeoutRef := none } := by
  unfold fakePause
  rw [resetTimeout_eq { s with timer := s.timer.pause } hInv]

lemma fakeStop_eq (s : FState) (hInv : RefInv s) :
    fakeStop s = { s with seekOffset := 0, timer := ⟨.idle, 0⟩,
                          pendingTimers := [], timeoutRef := none } := by
  unfold fakeStop
  rw [resetTimeout_eq { s with seekOffset := 0, timer := s.timer.stop.clear } hInv]
  rfl

/-- The timer branch of `#fakeResume`: resume a paused timer, start an idle
one, leave a running one untouched. -/
def fakeResumeTimer (t : Timer) : Timer :=
  match t.mode with
  | .paused => ⟨.running, t.accMs⟩
  | .idle => ⟨.running, 0⟩
  | .running => t

lemma fakeResume_branch (s : FState) :
    (if s.timer.isPaused then { s with timer := s.timer.resume }
     else if s.timer.isStopped || !s.timer.isStarted then { s with timer := s.timer.start }
     else s) = { s with timer := fakeResumeTimer s.timer } := by
  rcases hm : s.timer.mode with _ | _ | _ <;>
    simp [Timer.isPaused, Timer.isStopped, Timer.isStarted, Timer.resume, Timer.start,
      fakeResumeTimer, hm]

lemma fakeResume_eq (s : FState) (hInv : RefInv s) :
    fakeResume s =
      { s with timer := fakeResumeTimer s.timer,
               pendingTimers := [⟨s.nextId, ((s.duration : Int) - (s.seekOffset : Int) + 1) * 1000⟩],
               timeoutRef := some s.nextId,
               nextId := s.nextId + 1 } := by
  unfold fakeResume
  rw [fakeResume_branch]
  rw [startTimeout_eq _ _ (by exact hInv)]

lemma fakePlay_some_eq (s : FState) (vid : String) (p : Nat) (info : VideoInfo)
    (hInv : RefInv s) :
    fakePlay s vid p (some info) =
      ({ s with seekOffset := p,
                currentVideoId := some vid,
                currentVideoTitle := some info.title,
                timer := ⟨.running, 0⟩,
                pendingTimers := [⟨s.nextId, ((info.duration.getD 0 : Int) - (p : Int) + 1) * 1000⟩],
                timeoutRef := some s.nextId,
                nextId := s.nextId + 1,
                duration := info.duration.getD 0 }, true) := by
  unfold fakePlay
  rw [resetTimeout_eq { s with seekOffset := p, timer := s.timer.stop } hInv]
  dsimp only
  rw [startTimeout_eq _ _ (by intro t ht; cases ht)]
  try rfl

lemma fakePlay_none_eq (s : FState) (vid : String) (p : Nat) (hInv : RefInv s) :
    fakePlay s vid p none =
      ({ s with seekOffset := p, timer := s.timer.stop,
                pendingTimers := [], timeoutRef := none }, false) := by
  unfold fakePlay
  rw [resetTimeout_eq { s with seekOffset := p, timer := s.timer.stop } hInv]

lemma fakeSeek_eq (s : FState) (p : Nat) (hInv : RefInv s) :
    fakeSeek s p =
      if s.status = .playing then
        { s with seekOffset := p, timer := ⟨.running, 0⟩,
                 pendingTimers := [⟨s.nextId, ((s.duration : Int) - (p : Int) + 1) * 1000⟩],
                 timeoutRef := some s.nextId,
                 nextId := s.nextId + 1 }
      else
        { s with seekOffset := p, timer := ⟨.idle, 0⟩,
                 pendingTimers := [], timeoutRef := none } := by
  unfold fakeSeek
  rw [resetTimeout_eq { s with timer := s.timer.stop.clear, seekOffset := p } hInv]
  dsimp only
  by_cases hs : s.status = PlayerStatus.playing
  · rw [if_pos hs, if_pos hs]
    rw [fakeResume_eq _ (by intro t ht; cases ht)]
    rfl
  · rw [if_neg hs, if_neg hs]
    rfl

/-- Along every realizable execution, the stored handle owns every armed
timer and at most one timer is armed at any time. -/
lemma reachable_refInv (s : FState) (h : Reachable s) :
    RefInv s ∧ s.pendingTimers.length ≤ 1 := by
  induction h with
  | base => exact ⟨fun t ht => absurd ht (List.not_mem_nil t), by simp [initState]⟩
  | trans s op hr hv ih =>
    obtain ⟨hRef, hLen⟩ := ih
    cases op with
    | play vid p meta remoteOk =>
      cases remoteOk with
      | false => exact ⟨hRef, hLen⟩
      | true =>
        cases meta with
        | none =>
          rw [step_play_ok, fakePlay_none_eq s vid p hRef]
          exact ⟨fun t ht => by simp at ht, by simp⟩
        | some info =>
          rw [step_play_ok, fakePlay_some_eq s vid p info hRef]
          exact ⟨fun t ht => by simp at ht; simp [ht], by simp⟩
    | pause remoteOk =>
      cases remoteOk with
      | false => exact ⟨hRef, hLen⟩
      | true =>
        rw [step_pause_ok, fakePause_eq s hRef]
        exact ⟨fun t ht => by simp at ht, by simp⟩
    | resume remoteOk =>
      cases remoteOk with
      | false => exact ⟨hRef, hLen⟩
      | true =>
        rw [step_resume_ok, fakeResume_eq s hRef]
        exact ⟨fun t ht => by simp at ht; simp [ht], by simp⟩
    | stop remoteOk =>
      cases remoteOk with
      | false => exact ⟨hRef, hLen⟩
      | true =>
        rw [step_stop_ok, fakeStop_eq s hRef]
        exact ⟨fun t ht => by simp at ht, by simp⟩
    | seek p remoteOk =>
      cases remoteOk with
      | false => exact ⟨hRef, hLen⟩
      | true =>
        rw [step_seek_ok, fakeSeek_eq s p hRef]
        by_cases hs : s.status = PlayerStatus.playing
        · rw [if_pos hs]
          exact ⟨fun t ht => by simp at ht; simp [ht], by simp⟩
        · rw [if_neg hs]
          exact ⟨fun t ht => by simp at ht, by simp⟩
    | setVolume v => exact ⟨hRef, hLen⟩
    | tick dt =>
      rw [step_tick]
      refine ⟨fun t ht => ?_, by simpa using hLen⟩
      simp only [List.mem_map] at ht
      obtain ⟨t0, ht0, rfl⟩ := ht
      exact hRef t0 ht0
    | fire remotePauseOk =>
      cases hp : s.pendingTimers with
      | nil =>
        rw [step_fire_nil s remotePauseOk hp]
        exact ⟨hRef, hLen⟩
      | cons t rest =>
        have hrest : rest = [] := by
          rw [hp] at hLen
          simpa using hLen
        subst hrest
        cases remotePauseOk with
        | false =>
          rw [step_fire_cons_fail s t [] hp]
          exact ⟨fun u hu => by simp at hu, by simp⟩
        | true =>
          rw [step_fire_cons_ok s t [] hp]
          rw [fakePause_eq { s with pendingTimers := [] } (fun u hu => absurd hu (List.not_mem_nil u))]
          exact ⟨fun u hu => by simp at hu, by simp⟩

/-! ## Field lemmas -/

@[simp] lemma resetTimeout_timeoutRef (s : FState) : (resetTimeout s).timeoutRef = none := by
  rcases h : s.timeoutRef with _ | i <;> simp [resetTimeout, h]

@[simp] lemma resetTimeout_status (s : FState) : (resetTimeout s).status = s.status := by
  rcases h : s.timeoutRef with _ | i <;> simp [resetTimeout, h]

@[simp] lemma resetTimeout_timer (s : FState) : (resetTimeout s).timer = s.timer := by
  rcases h : s.timeoutRef with _ | i <;> simp [resetTimeout, h]

@[simp] lemma resetTimeout_seekOffset (s : FState) : (resetTimeout s).seekOffset = s.seekOffset := by
  rcases h : s.timeoutRef with _ | i <;> simp [resetTimeout, h]

@[simp] lemma resetTimeout_duration (s : FState) : (resetTimeout s).duration = s.duration := by
  rcases h : s.timeoutRef with _ | i <;> simp [resetTimeout, h]

@[simp] lemma resetTimeout_volume (s : FState) : (resetTimeout s).volume = s.volume := by
  rcases h : s.timeoutRef with _ | i <;> simp [resetTimeout, h]

@[simp] lemma resetTimeout_nextId (s : FState) : (resetTimeout s).nextId = s.nextId := by
  rcases h : s.timeoutRef with _ | i <;> simp [resetTimeout, h]

@[simp] lemma resetTimeout_nextCount (s : FState) : (resetTimeout s).nextCount = s.nextCount := by
  rcases h : s.timeoutRef with _ | i <;> simp [resetTimeout, h]

lemma Timer.pause_accMs (t : Timer) : t.pause.accMs = t.accMs := by
  unfold Timer.pause
  split <;> rfl

lemma Timer.pause_mode_not_running (t : Timer) : t.pause.mode ≠ TimerMode.running := by
  unfold Timer.pause
  split
  · simp
  · next h => exact h

lemma Timer.pause_pause (t : Timer) : t.pause.pause = t.pause := by
  rcases hm : t.mode <;> simp [Timer.pause, hm]

/-! ## Claims about the deferred end-of-video callback -/

/-- Claim C6: along every realizable execution at most one end-of-video
callback is armed, and immediately after a rescheduling operation (resume,
successful play, seek while PLAYING) exactly one callback is armed. -/
theorem single_pending_callback_invariant (s : FState) (h : Reachable s) :
    s.pendingTimers.length ≤ 1 ∧
    (step s (.resume true)).pendingTimers.length = 1 ∧
    (∀ vid p info, (step s (.play vid p (some info) true)).pendingTimers.length = 1) ∧
    (s.status = PlayerStatus.playing →
      ∀ p, (step s (.seek p true)).pendingTimers.length = 1) := by
  obtain ⟨hRef, hLen⟩ := reachable_refInv s h
  refine ⟨hLen, ?_, ?_, ?_⟩
  · rw [step_resume_ok, fakeResume_eq s hRef]
    simp
  · intro vid p info
    rw [step_play_ok, fakePlay_some_eq s vid p info hRef]
    simp
  · intro hs p
    rw [step_seek_ok, fakeSeek_eq s p hRef, if_pos hs]
    simp

theorem single_pending_callback_invariant_witness :
    initState.pendingTimers.length ≤ 1 ∧
    (step initState (.resume true)).pendingTimers.length = 1 ∧
    (∀ vid p info, (step initState (.play vid p (some info) true)).pendingTimers.length = 1) ∧
    (initState.status = PlayerStatus.playing →
      ∀ p, (step initState (.seek p true)).pendingTimers.length = 1) :=
  single_pending_callback_invariant initState Reachable.base

/-- Claim C9: pause is idempotent — a second pause leaves the position, the
status, and in fact the whole state exactly as after the first pause;
pausing an already-paused timer and clearing an absent callback are
no-ops. -/
theorem pause_idempotent (s : FState) :
    doGetPosition (step (step s (.pause true)) (.pause true)) =
      doGetPosition (step s (.pause true)) ∧
    (step (step s (.pause true)) (.pause true)).status = (step s (.pause true)).status ∧
    step (step s (.pause true)) (.pause true) = step s (.pause true) := by
  have key : step (step s (.pause true)) (.pause true) = step s (.pause true) := by
    rw [step_pause_ok (step s (.pause true)), step_pause_ok s]
    unfold fakePause
    rcases h : s.timeoutRef with _ | i <;>
      rcases hm : s.timer.mode with _ | _ | _ <;>
        simp [resetTimeout, Timer.pause, h, hm]
  exact ⟨by rw [key], by rw [key], key⟩

/-- Claim C8: `seek(p)` immediately followed by `getPosition()` returns `p`
(the timer is freshly cleared, so no elapsed time is added), and if the
status was PLAYING the seek leaves it PLAYING and re-arms the end-of-video
callback for `(duration - p) + 1` seconds. -/
theorem seek_roundtrip (s : FState) (p : Nat) (h : Reachable s) :
    doGetPosition (step s (.seek p true)) = p ∧
    (s.status = PlayerStatus.playing →
      (step s (.seek p true)).status = PlayerStatus.playing ∧
      (step s (.seek p true)).pendingTimers =
        [⟨s.nextId, ((s.duration : Int) - (p : Int) + 1) * 1000⟩]) := by
  obtain ⟨hRef, hLen⟩ := reachable_refInv s h
  rw [step_seek_ok, fakeSeek_eq s p hRef]
  by_cases hs : s.status = PlayerStatus.playing
  · rw [if_pos hs]
    exact ⟨by simp [doGetPosition, Timer.ms], fun _ => ⟨hs, rfl⟩⟩
  · rw [if_neg hs]
    exact ⟨by simp [doGetPosition, Timer.ms], fun hps => absurd hps hs⟩

theorem seek_roundtrip_witness :
    doGetPosition (step (run [.play "a" 0 (some ⟨"t", some 10⟩) true]) (.seek 7 true)) = 7 ∧
    (step (run [.play "a" 0 (some ⟨"t", some 10⟩) true]) (.seek 7 true)).status =
      PlayerStatus.playing ∧
    (step (run [.play "a" 0 (some ⟨"t", some 10⟩) true]) (.seek 7 true)).pendingTimers =
      [⟨1, 4000⟩] := by
  have hreach : Reachable (run [.play "a" 0 (some ⟨"t", some 10⟩) true]) :=
    Reachable.trans initState (.play "a" 0 (some ⟨"t", some 10⟩) true) Reachable.base trivial
  have h := seek_roundtrip (run [.play "a" 0 (some ⟨"t", some 10⟩) true]) 7 hreach
  have h2 := h.2 (by decide)
  refine ⟨h.1, h2.1, ?_⟩
  rw [h2.2]
  decide

/-- Claim C5: `#startTimeout(afterSeconds)` first cancels any armed callback
and arms exactly one single-shot callback with delay
`(afterSeconds + 1) * 1000` ms, storing its handle; when an armed callback
fires it is consumed (single-shot) and its body performs, in order: the
simulator pause operation (`await this.pause()`), `seekOffset = 0`, stop and
clear the elapsed timer, then one `next()` signal. -/
theorem startTimeout_schedule_and_fire (s : FState) (d : Int) (hInv : RefInv s) :
    (startTimeout s d).pendingTimers = [⟨s.nextId, (d + 1) * 1000⟩] ∧
    (startTimeout s d).timeoutRef = some s.nextId ∧
    (∀ (s' : FState) (t : PendingTimer) (rest : List PendingTimer),
        s'.pendingTimers = t :: rest →
        step s' (.fire true) =
          (let s1 := { s' with pendingTimers := rest }
           let s2 := step s1 (.pause true)
           let s3 := { s2 with seekOffset := 0, timer := s2.timer.stop.clear }
           { s3 with nextCount := s3.nextCount + 1 })) := by
  refine ⟨by rw [startTimeout_eq s d hInv], by rw [startTimeout_eq s d hInv], ?_⟩
  intro s' t rest hp
  rw [step_fire_cons_ok s' t rest hp]
  rfl

theorem startTimeout_schedule_and_fire_witness :
    (startTimeout initState 9).pendingTimers = [⟨initState.nextId, ((9 : Int) + 1) * 1000⟩] ∧
    (startTimeout initState 9).timeoutRef = some initState.nextId ∧
    step (startTimeout initState 9) (.fire true) =
      (let s1 := { startTimeout initState 9 with pendingTimers := ([] : List PendingTimer) }
       let s2 := step s1 (.pause true)
       let s3 := { s2 with seekOffset := 0, timer := s2.timer.stop.clear }
       { s3 with nextCount := s3.nextCount + 1 }) := by
  have h := startTimeout_schedule_and_fire initState 9
    (fun t ht => absurd ht (List.not_mem_nil t))
  exact ⟨h.1, h.2.1,
    h.2.2 (startTimeout initState 9) ⟨initState.nextId, ((9 : Int) + 1) * 1000⟩ [] h.1⟩

/-! ## The `do...` transition methods (FakePlayer.ts lines 49-78)

Each method `await`s `resilientFetch(url, {}, 5, 30000)` with no try/catch
around it, then returns the corresponding `#fake...` local effect. The url is
abstracted into the per-attempt outcomes. -/

def doPlay (s : FState) (vid : String) (p : Nat) (meta : Option VideoInfo)
    (attempts : Nat → AttemptOutcome) : Except String (FState × Bool) :=
  match (resilientFetch attempts 5 30000).1 with
  | .error e => .error e
  | .ok _ => .ok (fakePlay s vid p meta)

def doPause (s : FState) (attempts : Nat → AttemptOutcome) :
    Except String (FState × Bool) :=
  match (resilientFetch attempts 5 30000).1 with
  | .error e => .error e
  | .ok _ => .ok (fakePause s, true)

def doResume (s : FState) (attempts : Nat → AttemptOutcome) :
    Except String (FState × Bool) :=
  match (resilientFetch attempts 5 30000).1 with
  | .error e => .error e
  | .ok _ => .ok (fakeResume s, true)

def doStop (s : FState) (attempts : Nat → AttemptOutcome) :
    Except String (FState × Bool) :=
  match (resilientFetch attempts 5 30000).1 with
  | .error e => .error e
  | .ok _ => .ok (fakeStop s, true)

def doSeek (s : FState) (p : Nat) (attempts : Nat → AttemptOutcome) :
    Except String (FState × Bool) :=
  match (resilientFetch attempts 5 30000).1 with
  | .error e => .error e
  | .ok _ => .ok (fakeSeek s p, true)

/-- Every attempt of the mirrored remote call fails (endpoint unreachable). -/
def allRemoteFail : Nat → AttemptOutcome :=
  fun _ => .err "fetch failed" false

/-- Claim C1 (the code contradicts it): when the mirrored remote call
exhausts its 5 attempts and throws, every transition method rethrows the
error — the `await resilientFetch(...)` sits before the local `#fake...`
call with no try/catch — so the local simulated-state change never happens
and the error escapes the operation, for pause, resume, stop, seek and play
alike. -/
theorem remote_failure_blocks_local_transition (s : FState) :
    doPause s allRemoteFail = .error (failMsg 5 "fetch failed") ∧
    doResume s allRemoteFail = .error (failMsg 5 "fetch failed") ∧
    doStop s allRemoteFail = .error (failMsg 5 "fetch failed") ∧
    (∀ p, doSeek s p allRemoteFail = .error (failMsg 5 "fetch failed")) ∧
    (∀ vid p meta, doPlay s vid p meta allRemoteFail = .error (failMsg 5 "fetch failed")) := by
  have hfail : (resilientFetch allRemoteFail 5 30000).1 = .error (failMsg 5 "fetch failed") := rfl
  refine ⟨?_, ?_, ?_, fun p => ?_, fun vid p meta => ?_⟩ <;>
    simp [doPause, doResume, doStop, doSeek, doPlay, hfail]

/-! ## Play with a null metadata result (claim C2) -/

/-- Claim C2 amended: when the metadata loader returns null, `play` reports
failure and leaves status, duration and volume unchanged, but — because
`#fakePlay` mutates state before awaiting the loader — the seek offset has
already been overwritten with the requested position, the timer has been
stopped (retaining its elapsed value), and the armed callback cancelled, so
the observable position may change. -/
theorem play_null_metadata_incomplete_rollback (s : FState) (vid : String) (p : Nat) :
    (fakePlay s vid p none).2 = false ∧
    (step s (.play vid p none true)).status = s.status ∧
    (step s (.play vid p none true)).duration = s.duration ∧
    (step s (.play vid p none true)).volume = s.volume ∧
    (step s (.play vid p none true)).seekOffset = p ∧
    (step s (.play vid p none true)).timer = s.timer.stop ∧
    (step s (.play vid p none true)).timeoutRef = none := by
  have h1 : fakePlay s vid p none =
      (resetTimeout { s with seekOffset := p, timer := s.timer.stop }, false) := rfl
  have h2 : step s (.play vid p none true) =
      resetTimeout { s with seekOffset := p, timer := s.timer.stop } := by
    rw [step_play_ok, h1]
    rfl
  rw [h1, h2]
  simp

/-- A playback history: play video "a" from position 3 (duration 10), then
let 5 seconds elapse — the observable position is 8. -/
def playPreOps : List FOp := [.play "a" 3 (some ⟨"t", some 10⟩) true, .tick 5000]

/-- The same history followed by a `play` whose metadata load returns null. -/
def playNullOps : List FOp := playPreOps ++ [.play "b" 0 none true]

/-- Claim C2 counterexample: from the reachable state with position 8, a
`play(videoB, 0)` whose metadata loader returns null changes the observable
position to 5 — the prior state is not left unchanged. -/
theorem play_null_metadata_changes_position_cex :
    Reachable (run playPreOps) ∧
    doGetPosition (run playPreOps) = 8 ∧
    doGetPosition (run playNullOps) = 5 ∧
    doGetPosition (run playNullOps) ≠ doGetPosition (run playPreOps) := by
  refine ⟨?_, by decide, by decide, by decide⟩
  have h1 : Reachable (step initState (.play "a" 3 (some ⟨"t", some 10⟩) true)) :=
    Reachable.trans initState (.play "a" 3 (some ⟨"t", some 10⟩) true) Reachable.base trivial
  exact Reachable.trans (step initState (.play "a" 3 (some ⟨"t", some 10⟩) true))
    (.tick 5000) h1 (by decide)

/-! ## Position bound (claim C7) -/

/-- Side conditions under which the position bound of spec 8 is provable:
plays succeed with a target position within the loaded duration, seeks stay
within the current duration, resume is only invoked with no accumulated
elapsed time (because `#fakeResume` re-arms the full
`duration - seekOffset` window, ignoring time already elapsed), and the
fired callback's mirrored pause call succeeds. -/
abbrev GoodOp (s : FState) (op : FOp) : Prop :=
  match op with
  | .play _ p meta remoteOk =>
    remoteOk = true → ∃ info, meta = some info ∧ p ≤ info.duration.getD 0
  | .seek p remoteOk => remoteOk = true → p ≤ s.duration
  | .resume remoteOk =>
    remoteOk = true → (s.timer.mode = TimerMode.idle ∨ s.timer.accMs = 0)
  | .fire remotePauseOk => remotePauseOk = true
  | _ => True

/-- States reachable through realizable events satisfying `GoodOp`. -/
inductive RReach : FState → Prop where
  | base : RReach initState
  | trans : ∀ s op, RReach s → ValidOp s op → GoodOp s op → RReach (step s op)

lemma rreach_reachable (s : FState) (h : RReach s) : Reachable s := by
  induction h with
  | base => exact Reachable.base
  | trans s op hr hv hg ih => exact Reachable.trans s op ih hv

/-- Strengthened invariant: the seek offset never exceeds the duration, the
already-accounted time is bounded, an armed callback's remaining delay fits
in the remaining `duration + 1` window, and the timer runs exactly when a
callback is armed. -/
abbrev PosInv (s : FState) : Prop :=
  s.seekOffset ≤ s.duration ∧
  1000 * s.seekOffset + s.timer.accMs ≤ 1000 * (s.duration + 1) ∧
  (∀ t ∈ s.pendingTimers, 0 ≤ t.delayMs ∧
     1000 * s.seekOffset + s.timer.accMs + t.delayMs.toNat ≤ 1000 * (s.duration + 1)) ∧
  (s.timer.mode = TimerMode.running ↔ s.pendingTimers ≠ [])

lemma posInv_scheduled (st : FState) (i : Nat) (hsd : st.seekOffset ≤ st.duration)
    (hacc : st.timer.accMs = 0) (hmode : st.timer.mode = TimerMode.running)
    (hpend : st.pendingTimers =
      [⟨i, ((st.duration : Int) - (st.seekOffset : Int) + 1) * 1000⟩]) :
    PosInv st := by
  refine ⟨hsd, ?_, ?_, ?_⟩
  · rw [hacc]
    omega
  · intro t ht
    rw [hpend] at ht
    simp only [List.mem_singleton] at ht
    subst ht
    rw [hacc]
    dsimp only
    constructor
    · omega
    · omega
  · rw [hpend]
    simp [hmode]

lemma posInv_parked (st : FState) (hsd : st.seekOffset ≤ st.duration)
    (hbound : 1000 * st.seekOffset + st.timer.accMs ≤ 1000 * (st.duration + 1))
    (hmode : st.timer.mode ≠ TimerMode.running)
    (hpend : st.pendingTimers = []) : PosInv st := by
  refine ⟨hsd, hbound, ?_, ?_⟩
  · intro t ht
    rw [hpend] at ht
    exact absurd ht (List.not_mem_nil t)
  · rw [hpend]
    simp [hmode]

lemma step_play_ok_of_true (s : FState) (vid : String) (p : Nat)
    (meta : Option VideoInfo) (h : (fakePlay s vid p meta).2 = true) :
    step s (.play vid p meta true) =
      { (fakePlay s vid p meta).1 with status := PlayerStatus.playing } := by
  rw [step_play_ok, if_pos h]

lemma rreach_posInv (s : FState) (h : RReach s) : PosInv s := by
  induction h with
  | base => decide
  | trans s op hr hv hg ih =>
    obtain ⟨hRef, hLen⟩ := reachable_refInv s (rreach_reachable s hr)
    obtain ⟨hsd, hbound, hpend, hiff⟩ := ih
    cases op with
    | play vid p meta remoteOk =>
      cases remoteOk with
      | false => exact ⟨hsd, hbound, hpend, hiff⟩
      | true =>
        obtain ⟨info, hmeta, hple⟩ := hg rfl
        subst hmeta
        have hp2 : (fakePlay s vid p (some info)).2 = true := by
          rw [fakePlay_some_eq s vid p info hRef]
        rw [step_play_ok_of_true s vid p (some info) hp2,
          fakePlay_some_eq s vid p info hRef]
        exact posInv_scheduled _ s.nextId hple rfl rfl rfl
    | pause remoteOk =>
      cases remoteOk with
      | false => exact ⟨hsd, hbound, hpend, hiff⟩
      | true =>
        rw [step_pause_ok, fakePause_eq s hRef]
        refine posInv_parked _ hsd ?_ (Timer.pause_mode_not_running s.timer) rfl
        show 1000 * s.seekOffset + (s.timer.pause).accMs ≤ 1000 * (s.duration + 1)
        rw [Timer.pause_accMs]
        exact hbound
    | resume remoteOk =>
      cases remoteOk with
      | false => exact ⟨hsd, hbound, hpend, hiff⟩
      | true =>
        rw [step_resume_ok, fakeResume_eq s hRef]
        have hT0 : (fakeResumeTimer s.timer).accMs = 0 := by
          rcases hg rfl with hidle | hacc
          · simp [fakeResumeTimer, hidle]
          · rcases hm : s.timer.mode with _ | _ | _ <;> simp [fakeResumeTimer, hm, hacc]
        have hTm : (fakeResumeTimer s.timer).mode = TimerMode.running := by
          rcases hm : s.timer.mode with _ | _ | _ <;> simp [fakeResumeTimer, hm]
        exact posInv_scheduled _ s.nextId hsd hT0 hTm rfl
    | stop remoteOk =>
      cases remoteOk with
      | false => exact ⟨hsd, hbound, hpend, hiff⟩
      | true =>
        rw [step_stop_ok, fakeStop_eq s hRef]
        refine posInv_parked _ (Nat.zero_le _) ?_ (by simp) rfl
        show 1000 * 0 + 0 ≤ 1000 * (s.duration + 1)
        omega
    | seek p remoteOk =>
      cases remoteOk with
      | false => exact ⟨hsd, hbound, hpend, hiff⟩
      | true =>
        have hple := hg rfl
        rw [step_seek_ok, fakeSeek_eq s p hRef]
        by_cases hs : s.status = PlayerStatus.playing
        · rw [if_pos hs]
          exact posInv_scheduled _ s.nextId hple rfl rfl rfl
        · rw [if_neg hs]
          refine posInv_parked _ hple ?_ (by simp) rfl
          show 1000 * p + 0 ≤ 1000 * (s.duration + 1)
          omega
    | setVolume v => exact ⟨hsd, hbound, hpend, hiff⟩
    | tick dt =>
      rw [step_tick]
      cases hp : s.pendingTimers with
      | nil =>
        have hnr : s.timer.mode ≠ TimerMode.running := fun hr2 => (hiff.mp hr2) hp
        have htk : s.timer.tick dt = s.timer := by
          unfold Timer.tick
          rw [if_neg hnr]
        refine posInv_parked _ hsd ?_ ?_ rfl
        · show 1000 * s.seekOffset + (s.timer.tick dt).accMs ≤ 1000 * (s.duration + 1)
          rw [htk]
          exact hbound
        · show (s.timer.tick dt).mode ≠ TimerMode.running
          rw [htk]
          exact hnr
      | cons t rest =>
        have hrest : rest = [] := by
          rw [hp] at hLen
          simpa using hLen
        subst hrest
        have htmem : t ∈ s.pendingTimers := by
          rw [hp]
          exact List.mem_cons_self t []
        have hrun : s.timer.mode = TimerMode.running := by
          apply hiff.mpr
          rw [hp]
          simp
        obtain ⟨hd0, hdsum⟩ := hpend t htmem
        have hvt : (dt : Int) ≤ t.delayMs := hv t htmem
        have htk : s.timer.tick dt = ⟨TimerMode.running, s.timer.accMs + dt⟩ := by
          unfold Timer.tick
          rw [if_pos hrun]
        refine ⟨hsd, ?_, ?_, ?_⟩
        · show 1000 * s.seekOffset + (s.timer.tick dt).accMs ≤ 1000 * (s.duration + 1)
          rw [htk]
          dsimp only
          omega
        · intro u hu
          simp only [List.map_cons, List.map_nil, List.mem_singleton] at hu
          subst hu
          dsimp only
          rw [htk]
          dsimp only
          constructor
          · omega
          · omega
        · dsimp only
          rw [htk]
          simp
    | fire r =>
      have hr2 : r = true := hg
      subst hr2
      obtain ⟨hne, hall⟩ := hv
      cases hp : s.pendingTimers with
      | nil => exact absurd hp hne
      | cons t rest =>
        have hrest : rest = [] := by
          rw [hp] at hLen
          simpa using hLen
        subst hrest
        rw [step_fire_cons_ok s t [] hp]
        rw [fakePause_eq { s with pendingTimers := [] }
          (fun u hu => absurd hu (List.not_mem_nil u))]
        refine posInv_parked _ (Nat.zero_le _) ?_ (by simp [Timer.clear]) rfl
        show 1000 * 0 + 0 ≤ 1000 * (s.duration + 1)
        omega

/-- Claim C7 amended: position is always non-negative, and along every
`GoodOp`-restricted execution (see `GoodOp`) the position never exceeds
duration + 1. -/
theorem position_bound_restricted (s : FState) (h : RReach s) :
    0 ≤ doGetPosition s ∧ doGetPosition s ≤ doGetDuration s + 1 := by
  obtain ⟨hsd, hbound, hpend, hiff⟩ := rreach_posInv s h
  refine ⟨Nat.zero_le _, ?_⟩
  unfold doGetPosition doGetDuration Timer.ms
  omega

theorem position_bound_restricted_witness :
    0 ≤ doGetPosition initState ∧ doGetPosition initState ≤ doGetDuration initState + 1 :=
  position_bound_restricted initState RReach.base

/-- Play from position 0 (duration 10), let 5 s elapse, pause, resume, and
let a further 10.999 s elapse — all of it inside the re-armed callback's
window, because `#fakeResume` schedules the full `duration - seekOffset + 1`
window regardless of the 5 s already elapsed. -/
def overshootOps : List FOp :=
  [.play "a" 0 (some ⟨"t", some 10⟩) true, .tick 5000, .pause true, .resume true,
   .tick 10999]

/-- Claim C7 counterexample: after play, 5 s, pause, resume, 10.999 s — a
realizable sequence of ordinary operations — the position is 15 while the
duration is 10, violating position ≤ duration + 1. -/
theorem position_bound_cex :
    Reachable (run overshootOps) ∧
    doGetDuration (run overshootOps) = 10 ∧
    doGetPosition (run overshootOps) = 15 ∧
    ¬ doGetPosition (run overshootOps) ≤ doGetDuration (run overshootOps) + 1 := by
  refine ⟨?_, by decide, by decide, by decide⟩
  have h1 : Reachable (step initState (.play "a" 0 (some ⟨"t", some 10⟩) true)) :=
    Reachable.trans initState (.play "a" 0 (some ⟨"t", some 10⟩) true)
      Reachable.base trivial
  have h2 := Reachable.trans _ (.tick 5000) h1 (by decide)
  have h3 := Reachable.trans _ (.pause true) h2 (by decide)
  have h4 := Reachable.trans _ (.resume true) h3 (by decide)
  exact Reachable.trans _ (.tick 10999) h4 (by decide)

end YtCast
